import Mathlib

/-!
Verification of the Snapshot & Element Resolution Engine of the
ShellChrome console browser (`ConsoleBrowser` in the repository).

The development shallowly embeds the relevant parts of the JavaScript
source: the scored heuristic element resolution of `getElementByUid`,
the pre-order uid numbering of `formatAccessibilityTree`/`takeSnapshot`,
the visual scanner `getElementsForOCR`, the state effect of resolution on
the snapshot index, `fill`, and `closePage`.  JavaScript strings are
modelled as Lean `String`, pixel coordinates as `Int` (the claims under
study concern comparisons and 10-pixel buckets, not float rounding), and
the string-keyed `Map` `snapshotIdToNode` as a list of records looked up
by their uid string.
-/

/-! ### Executable string helpers

Small kernel-reducible replacements for the JavaScript string operations
used by the source (`includes`, `toLowerCase`, `trim`, `join`,
`startsWith`, `parseInt`, decimal rendering of the uid counter). -/

/-- Is the first character list an initial segment of the second?
(`[]` is an initial segment of everything, matching JS `includes('')`.) -/
def listIsPre : List Char → List Char → Bool
  | [], _ => true
  | _ :: _, [] => false
  | a :: as, b :: bs => a == b && listIsPre as bs

/-- Does `pat` occur as a contiguous run inside `l`?  Models JS
`String.prototype.includes`. -/
def hasSubList (pat : List Char) : List Char → Bool
  | [] => listIsPre pat []
  | c :: t => listIsPre pat (c :: t) || hasSubList pat (c :: t).tail

/-- JS `s.includes(pat)`. -/
def strIncludes (s pat : String) : Bool := hasSubList pat.data s.data

/-- JS `s.toLowerCase()` restricted to ASCII (tag names are ASCII). -/
def strLower (s : String) : String := String.mk (s.data.map Char.toLower)

/-- ASCII whitespace, the fragment of JS `trim`'s whitespace class that
occurs in the texts under study. -/
def isWs (c : Char) : Bool := c == ' ' || c == '\t' || c == '\n' || c == '\r'

/-- JS `s.trim()`. -/
def strTrim (s : String) : String :=
  String.mk (((s.data.dropWhile isWs).reverse.dropWhile isWs).reverse)

/-- JS `array.join(' ')`. -/
def joinSpace : List String → String
  | [] => ""
  | [s] => s
  | s :: rest => s ++ " " ++ joinSpace rest

/-- JS `s.startsWith(pre)`. -/
def strStartsWith (s pre : String) : Bool := listIsPre pre.data s.data

/-- JS `parseInt(s)` on a non-negative input: the leading digit run, or
`none` for `NaN` when the string does not start with a digit. -/
def jsParseInt (s : String) : Option Nat :=
  let ds := s.data.takeWhile (fun c => c.isDigit)
  if ds.isEmpty then none
  else some (ds.foldl (fun a c => 10 * a + (c.toNat - 48)) 0)

/-- The decimal digit characters. -/
def digitChar : Nat → Char
  | 0 => '0' | 1 => '1' | 2 => '2' | 3 => '3' | 4 => '4'
  | 5 => '5' | 6 => '6' | 7 => '7' | 8 => '8' | 9 => '9'
  | _ => '*'

/-- Fuelled decimal digit expansion (most significant first).  The fuel
makes the definition structurally recursive and kernel-reducible; it is
always called with fuel `n + 1 > n`. -/
def decDigitsF : Nat → Nat → List Nat
  | 0, _ => []
  | fuel + 1, n => if n < 10 then [n] else decDigitsF fuel (n / 10) ++ [n % 10]

/-- Decimal digits of `n`, most significant first. -/
def decDigits (n : Nat) : List Nat := decDigitsF (n + 1) n

/-- Decimal rendering of a natural number, as JS template interpolation
produces for the uid counters. -/
def decStr (n : Nat) : String := String.mk ((decDigits n).map digitChar)

/-- The uid string `"uid_<n>"` assigned to accessibility-tree nodes. -/
def uidStr (n : Nat) : String := "uid_" ++ decStr n

/-- The uid string `"ocr_<n>"` assigned to visually-scanned nodes. -/
def ocrStr (n : Nat) : String := "ocr_" ++ decStr n

/-- Value of a digit list, most significant first. -/
def decVal (l : List Nat) : Nat := l.foldl (fun a d => 10 * a + d) 0

theorem decVal_append (l : List Nat) (d : Nat) :
    decVal (l ++ [d]) = 10 * decVal l + d := by
  simp [decVal, List.foldl_append]

theorem decVal_decDigitsF (fuel n : Nat) (h : n < fuel) :
    decVal (decDigitsF fuel n) = n := by
  induction fuel generalizing n with
  | zero => omega
  | succ fuel ih =>
    rw [decDigitsF]
    by_cases h10 : n < 10
    · simp [h10, decVal]
    · rw [if_neg h10, decVal_append, ih (n / 10) (by omega), Nat.div_add_mod]

theorem decVal_decDigits (n : Nat) : decVal (decDigits n) = n :=
  decVal_decDigitsF (n + 1) n (Nat.lt_succ_self n)

theorem decDigits_inj {m n : Nat} (h : decDigits m = decDigits n) : m = n := by
  have := congrArg decVal h
  rwa [decVal_decDigits, decVal_decDigits] at this

theorem decDigitsF_lt_ten (fuel n : Nat) (h : n < fuel) :
    ∀ d ∈ decDigitsF fuel n, d < 10 := by
  induction fuel generalizing n with
  | zero => omega
  | succ fuel ih =>
    rw [decDigitsF]
    by_cases h10 : n < 10
    · rw [if_pos h10]
      intro d hd
      simp at hd
      omega
    · rw [if_neg h10]
      intro d hd
      rcases List.mem_append.1 hd with hd | hd
      · exact ih (n / 10) (by omega) d hd
      · simp at hd; omega

theorem digitChar_inj : ∀ a < 10, ∀ b < 10, digitChar a = digitChar b → a = b := by
  decide

theorem map_digitChar_inj : ∀ {l l' : List Nat}, (∀ d ∈ l, d < 10) →
    (∀ d ∈ l', d < 10) → l.map digitChar = l'.map digitChar → l = l'
  | [], [], _, _, _ => rfl
  | [], _ :: _, _, _, h => by simp at h
  | _ :: _, [], _, _, h => by simp at h
  | a :: l, b :: l', ha, hb, h => by
    simp only [List.map_cons, List.cons.injEq] at h
    have h1 : a = b := digitChar_inj a (ha a (by simp)) b (hb b (by simp)) h.1
    have h2 : l = l' :=
      map_digitChar_inj (fun d hd => ha d (by simp [hd]))
        (fun d hd => hb d (by simp [hd])) h.2
    rw [h1, h2]

theorem decStr_inj {m n : Nat} (h : decStr m = decStr n) : m = n := by
  apply decDigits_inj
  have hdata := congrArg String.data h
  simp only [decStr] at hdata
  exact map_digitChar_inj
    (decDigitsF_lt_ten (m + 1) m (Nat.lt_succ_self m))
    (decDigitsF_lt_ten (n + 1) n (Nat.lt_succ_self n)) hdata

theorem uidStr_inj {m n : Nat} (h : uidStr m = uidStr n) : m = n := by
  apply decStr_inj
  have hdata := congrArg String.data h
  simp only [uidStr, String.data_append] at hdata
  exact String.ext (List.append_cancel_left hdata)

/-! ### Scored heuristic resolution (`getElementByUid`, fallback strategy)

The page-side callback enumerates `document.querySelectorAll('*')` and
scores every candidate against the stale `NodeRecord`'s `role`, `name`
and `bounds`.  A candidate is modelled by the DOM facts the callback
reads from it. -/

/-- A recorded bounding box, `{x, y, width, height}` in page pixels. -/
structure Bounds where
  x : Int
  y : Int
  width : Int
  height : Int
deriving DecidableEq

/-- The fields of a `NodeRecord` consulted by the scored resolution
callback: `{ role, name, bounds }`. -/
structure ResolveQuery where
  role : String
  name : String
  bounds : Option Bounds
deriving DecidableEq

/-- A live DOM candidate, as read by the scoring callback.  Absent
attributes are the empty string, matching JS `||` falsiness on
`getAttribute` results; `tagName` is uppercase as in the DOM. -/
structure Candidate where
  tagName : String
  roleAttr : String
  textContent : String
  ariaLabel : String
  placeholder : String
  rectLeft : Int
  rectTop : Int
deriving DecidableEq

/-- `el.getAttribute('role') || el.tagName.toLowerCase()`. -/
def elRole (c : Candidate) : String :=
  if c.roleAttr ≠ "" then c.roleAttr else strLower c.tagName

/-- Role-agreement term of the score: `+10` for direct role equality or
one of the link/button/textbox tag aliases. -/
def roleScore (role : String) (c : Candidate) : Nat :=
  if elRole c = role then 10
  else if role = "link" ∧ c.tagName = "A" then 10
  else if role = "button" ∧ (c.tagName = "BUTTON" ∨ c.roleAttr = "button") then 10
  else if role = "textbox" ∧ (c.tagName = "INPUT" ∨ c.tagName = "TEXTAREA") then 10
  else 0

/-- `el.textContent?.trim() || el.getAttribute('aria-label') ||
el.getAttribute('placeholder') || ''`. -/
def effectiveText (c : Candidate) : String :=
  if strTrim c.textContent ≠ "" then strTrim c.textContent
  else if c.ariaLabel ≠ "" then c.ariaLabel
  else c.placeholder

/-- Text-agreement term of the score as the source computes it: the
graded comparison runs only under the guard `if (name && elText)`. -/
def textScore (name : String) (c : Candidate) : Nat :=
  let t := effectiveText c
  if name ≠ "" ∧ t ≠ "" then
    if t = name then 20
    else if strIncludes t name then 15
    else if strIncludes name t then 10
    else 0
  else 0

/-- Geometry-agreement term: `+30` when a recorded box exists and the
live top-left corner is within 10 pixels on both axes. -/
def geoScore (bounds : Option Bounds) (c : Candidate) : Nat :=
  match bounds with
  | none => 0
  | some b =>
    if (c.rectLeft - b.x).natAbs < 10 ∧ (c.rectTop - b.y).natAbs < 10 then 30
    else 0

/-- Total score of one candidate, as accumulated by the callback. -/
def candidateScore (q : ResolveQuery) (c : Candidate) : Nat :=
  roleScore q.role c + textScore q.name c + geoScore q.bounds c

/-- Text-agreement term as the specification words it, with no
non-emptiness guard: +20 exact, +15 candidate-contains-name,
+10 name-contains-candidate, else +0. -/
def specTextTerm (name t : String) : Nat :=
  if t = name then 20
  else if strIncludes t name then 15
  else if strIncludes name t then 10
  else 0

/-- Candidate score as claim C1 words it: role term plus unguarded text
term plus geometry term. -/
def specClaimScore (q : ResolveQuery) (c : Candidate) : Nat :=
  roleScore q.role c + specTextTerm q.name (effectiveText c) + geoScore q.bounds c

/-- A candidate whose effective text is empty, scored against a record
with a non-empty name. -/
def blankButton : Candidate :=
  { tagName := "BUTTON", roleAttr := "", textContent := "", ariaLabel := ""
    placeholder := "", rectLeft := 0, rectTop := 0 }

/-- The record of a button named `Submit` with no recorded bounds. -/
def submitQueryNoBounds : ResolveQuery :=
  { role := "button", name := "Submit", bounds := none }

/-- Claim C1 (counterexample): the unguarded text term of the claim awards
`+10` (`"Submit"` contains the empty candidate text) to a candidate whose
effective text is empty, but the source's guard `if (name && elText)`
awards `+0`: the code scores this candidate 10, the claim's formula 20. -/
theorem c1_counterexample :
    candidateScore submitQueryNoBounds blankButton = 10 ∧
    specClaimScore submitQueryNoBounds blankButton = 20 := by
  constructor <;> decide

/-- The record of a button named `Submit` at `(100, 200, 80, 30)`. -/
def submitQuery : ResolveQuery :=
  { role := "button", name := "Submit", bounds := some ⟨100, 200, 80, 30⟩ }

/-- A live button named `Submit` whose top-left corner moved by 5 pixels
on each axis. -/
def submitButton : Candidate :=
  { tagName := "BUTTON", roleAttr := "", textContent := "Submit", ariaLabel := ""
    placeholder := "", rectLeft := 105, rectTop := 195 }

/-- Claim C1 (amended): each candidate's score is role term plus text term
plus geometry term, where the graded text comparison (+20 exact, +15
candidate-contains-name, +10 name-contains-candidate) applies only when
both the record's name and the candidate's effective text are non-empty
and contributes +0 otherwise; a candidate with matching role, exact
non-empty name, and bounds within the 10-pixel tolerance scores
10+20+30=60. -/
theorem c1_score_decomposition :
    (∀ (q : ResolveQuery) (c : Candidate),
      candidateScore q c =
        roleScore q.role c +
          (if q.name ≠ "" ∧ effectiveText c ≠ "" then
            specTextTerm q.name (effectiveText c)
          else 0) +
          geoScore q.bounds c) ∧
    candidateScore submitQuery submitButton = 60 := by
  refine ⟨fun q c => rfl, by decide⟩

/-! ### Winner selection (`getElementByUid`, scan over all elements)

The callback keeps `bestScore = 0, bestMatch = null` and updates on a
strict `score > bestScore` comparison while walking the page's elements
in document order. -/

/-- The scan loop: `i` is the document-order index of the next candidate,
`bs`/`best` the running best score and best index. -/
def scanBest {α : Type} (score : α → Nat) : List α → Nat → Nat → Option Nat → Option Nat
  | [], _, _, best => best
  | c :: rest, i, bs, best =>
    if bs < score c then scanBest score rest (i + 1) (score c) (some i)
    else scanBest score rest (i + 1) bs best

/-- Index of the candidate the callback returns (`none` models the
`null`/`bestScore = 0` failure path). -/
def selectBest {α : Type} (score : α → Nat) (cands : List α) : Option Nat :=
  scanBest score cands 0 0 none

/-- Maximum score over a candidate list, `0` when empty. -/
def listMaxScore {α : Type} (score : α → Nat) (l : List α) : Nat :=
  l.foldr (fun a m => max (score a) m) 0

/-- Selection as the specification words it: the first candidate in
document order attaining the maximum score wins; a maximum of `0` means
no match. -/
def selectSpec {α : Type} (score : α → Nat) (l : List α) : Option Nat :=
  if listMaxScore score l = 0 then none
  else List.findIdx? (fun a => score a == listMaxScore score l) l

theorem listMaxScore_cons {α : Type} (score : α → Nat) (c : α) (l : List α) :
    listMaxScore score (c :: l) = max (score c) (listMaxScore score l) := rfl

theorem scanBest_char {α : Type} (score : α → Nat) :
    ∀ (l : List α) (i bs : Nat) (best : Option Nat),
      scanBest score l i bs best =
        if bs < listMaxScore score l then
          List.findIdx? (fun a => score a == listMaxScore score l) l i
        else best := by
  intro l
  induction l with
  | nil =>
    intro i bs best
    simp [scanBest, listMaxScore]
  | cons c rest ih =>
    intro i bs best
    rw [listMaxScore_cons]
    by_cases h1 : bs < score c
    · rw [scanBest, if_pos h1, ih]
      by_cases h2 : score c < listMaxScore score rest
      · have hmax : max (score c) (listMaxScore score rest) = listMaxScore score rest :=
          Nat.max_eq_right (Nat.le_of_lt h2)
        rw [hmax, if_pos h2, if_pos (lt_of_lt_of_le h1 (Nat.le_of_lt h2)),
          List.findIdx?_cons]
        have hne : (score c == listMaxScore score rest) = false := by
          simp [Nat.ne_of_lt h2]
        rw [hne]
        simp
      · have hle : listMaxScore score rest ≤ score c := Nat.le_of_not_lt h2
        have hmax : max (score c) (listMaxScore score rest) = score c :=
          Nat.max_eq_left hle
        rw [hmax, if_neg h2, if_pos h1, List.findIdx?_cons]
        simp
    · rw [scanBest, if_neg h1, ih]
      have hle : score c ≤ bs := Nat.le_of_not_lt h1
      by_cases h2 : bs < listMaxScore score rest
      · have hmax : max (score c) (listMaxScore score rest) = listMaxScore score rest :=
          Nat.max_eq_right (le_of_lt (lt_of_le_of_lt hle h2))
        rw [hmax, if_pos h2, if_pos h2, List.findIdx?_cons]
        have hne : (score c == listMaxScore score rest) = false := by
          simp [Nat.ne_of_lt (lt_of_le_of_lt hle h2)]
        rw [hne]
        simp
      · have h3 : ¬ bs < max (score c) (listMaxScore score rest) := by
          rcases Nat.le_total (score c) (listMaxScore score rest) with h | h
          · rw [Nat.max_eq_right h]; exact h2
          · rw [Nat.max_eq_left h]; omega
        rw [if_neg h2, if_neg h3]

/-- Claim C2: during scored resolution, the candidate the scan returns is
exactly described by `selectSpec`: the strictly highest cumulative score
wins, ties keep the first-seen candidate in document enumeration order
(the first index attaining the maximum), and a maximum score of 0 yields
no candidate; the selection is a pure function of the record and the
page's candidate list, so repeated resolution over identical state picks
the same candidate. -/
theorem c2_first_max_wins :
    ∀ (q : ResolveQuery) (cands : List Candidate),
      selectBest (candidateScore q) cands = selectSpec (candidateScore q) cands := by
  intro q l
  rw [selectBest, selectSpec, scanBest_char]
  by_cases h : listMaxScore (candidateScore q) l = 0
  · rw [if_pos h, h]
    simp
  · rw [if_neg h, if_pos (Nat.pos_of_ne_zero h)]

/-! ### Snapshot construction (`takeSnapshot` / `formatAccessibilityTree`)

An accessibility tree is modelled as a forest in first-child/next-sibling
form: `cons role name children rest` is a node with its (ordered)
children forest and the forest of its following siblings.  `takeSnapshot`
resets `nextUid` to 1, clears `snapshotIdToNode`, then walks the tree,
assigning `uid_<nextUid++>` to each node on entry — before its children,
children in source order. -/

/-- Nested accessibility forest (first-child/next-sibling encoding). -/
inductive AXForest where
  | nil : AXForest
  | cons (role name : String) (children rest : AXForest) : AXForest
deriving DecidableEq

/-- Number of nodes in a forest. -/
def forestSize : AXForest → Nat
  | .nil => 0
  | .cons _ _ cs rest => 1 + forestSize cs + forestSize rest

/-- The same forest with the uid number stamped on every node. -/
inductive NForest where
  | nil : NForest
  | cons (num : Nat) (role name : String) (children rest : NForest) : NForest
deriving DecidableEq

/-- The uid-assignment walk of `formatAccessibilityTree`: the node takes
the current counter value, its children are numbered next (starting at
`n + 1`), then its following siblings. Returns the final counter. -/
def numberForest : AXForest → Nat → Nat × NForest
  | .nil, n => (n, .nil)
  | .cons role name cs rest, n =>
    let (n1, cs') := numberForest cs (n + 1)
    let (n2, rest') := numberForest rest n1
    (n2, .cons n role name cs' rest')

/-- All uid numbers of a numbered forest, in pre-order. -/
def forestNums : NForest → List Nat
  | .nil => []
  | .cons k _ _ cs rest => k :: (forestNums cs ++ forestNums rest)

/-- Every node's number is strictly below all of its descendants'
numbers, throughout the forest. -/
def parentBelowDesc : NForest → Bool
  | .nil => true
  | .cons k _ _ cs rest =>
    (forestNums cs).all (fun m => k < m) && parentBelowDesc cs && parentBelowDesc rest

/-- One entry of the `snapshotIdToNode` index. -/
structure SnapRec where
  uid : String
  num : Nat
  role : String
  name : String
deriving DecidableEq

/-- The index entries inserted by the walk, in insertion (pre-order)
order. -/
def flatRecs : NForest → List SnapRec
  | .nil => []
  | .cons k role name cs rest =>
    { uid := uidStr k, num := k, role := role, name := name }
      :: (flatRecs cs ++ flatRecs rest)

/-- The engine state touched by snapshots and resolution:
`this.snapshotIdToNode` and `this.nextUid`. -/
structure SnapshotState where
  snapshotIdToNode : List SnapRec
  nextUid : Nat
deriving DecidableEq

/-- `takeSnapshot`: reset the counter to 1, clear the index, then build
it by the pre-order walk.  The resulting state does not depend on the
state before the call. -/
def takeSnapshotM (t : AXForest) : SnapshotState :=
  let (n', nt) := numberForest t 1
  { snapshotIdToNode := flatRecs nt, nextUid := n' }

/-- `this.snapshotIdToNode.get(uid)` on the string-keyed map. -/
def lookupUid (st : SnapshotState) (uid : String) : Option SnapRec :=
  st.snapshotIdToNode.find? (fun r => r.uid == uid)

theorem numberForest_fst (t : AXForest) :
    ∀ n : Nat, (numberForest t n).1 = n + forestSize t := by
  induction t with
  | nil => intro n; simp [numberForest, forestSize]
  | cons role name cs rest ihc ihr =>
    intro n
    simp only [numberForest, forestSize]
    rw [ihr, ihc]
    omega

theorem forestNums_numberForest (t : AXForest) :
    ∀ n : Nat, forestNums (numberForest t n).2 = List.range' n (forestSize t) := by
  induction t with
  | nil => intro n; simp [numberForest, forestNums, forestSize]
  | cons role name cs rest ihc ihr =>
    intro n
    simp only [numberForest, forestNums, forestSize]
    rw [ihr, ihc, numberForest_fst]
    have hsplit := List.range'_append (n + 1) (forestSize cs) (forestSize rest) 1
    simp only [one_mul] at hsplit
    rw [hsplit]
    have hlen : 1 + forestSize cs + forestSize rest =
        (forestSize rest + forestSize cs) + 1 := by omega
    rw [hlen, List.range'_succ]

theorem parentBelowDesc_numberForest (t : AXForest) :
    ∀ n : Nat, parentBelowDesc (numberForest t n).2 = true := by
  induction t with
  | nil => intro n; simp [numberForest, parentBelowDesc]
  | cons role name cs rest ihc ihr =>
    intro n
    simp only [numberForest, parentBelowDesc, Bool.and_eq_true]
    refine ⟨⟨?_, ihc (n + 1)⟩, ihr ((numberForest cs (n + 1)).1)⟩
    rw [forestNums_numberForest, List.all_eq_true]
    intro m hm
    have := List.mem_range'_1.1 hm
    simp only [decide_eq_true_eq]
    omega

theorem flatRecs_map_num (nt : NForest) :
    (flatRecs nt).map SnapRec.num = forestNums nt := by
  induction nt with
  | nil => rfl
  | cons k role name cs rest ihc ihr =>
    simp [flatRecs, forestNums, ihc, ihr]

theorem flatRecs_uid (nt : NForest) :
    ∀ r ∈ flatRecs nt, r.uid = uidStr r.num := by
  induction nt with
  | nil => intro r hr; simp [flatRecs] at hr
  | cons k role name cs rest ihc ihr =>
    intro r hr
    simp only [flatRecs, List.mem_cons, List.mem_append] at hr
    rcases hr with hr | hr | hr
    · rw [hr]
    · exact ihc r hr
    · exact ihr r hr

/-- Claim C5: snapshot uid numbering is a strict pre-order depth-first
traversal starting at 1 — the sequence of uid numbers in index-insertion
(pre-order) order is exactly `1, 2, …, size`, each node is numbered
before its children (its number precedes theirs in that sequence), and
every node's numeric uid suffix is strictly below every descendant's;
moreover every stored record's uid string is `"uid_<its number>"` and the
counter ends one past the node count. -/
theorem c5_preorder_numbering (t : AXForest) :
    (takeSnapshotM t).snapshotIdToNode.map SnapRec.num =
        List.range' 1 (forestSize t) ∧
    parentBelowDesc (numberForest t 1).2 = true ∧
    (∀ r ∈ (takeSnapshotM t).snapshotIdToNode, r.uid = uidStr r.num) ∧
    (takeSnapshotM t).nextUid = 1 + forestSize t := by
  refine ⟨?_, parentBelowDesc_numberForest t 1, ?_, ?_⟩
  · show (flatRecs (numberForest t 1).2).map SnapRec.num = _
    rw [flatRecs_map_num, forestNums_numberForest]
  · intro r hr
    exact flatRecs_uid (numberForest t 1).2 r hr
  · show (numberForest t 1).1 = 1 + forestSize t
    rw [numberForest_fst]

/-! ### Epoch invalidation (`takeSnapshot` then `getElementByUid`)

`takeSnapshot` resets the uid counter to 1 and clears the index, so the
new epoch assigns the very same uid strings `uid_1, uid_2, …` again: a
prior-epoch uid string collides with the new epoch's numbering whenever
its numeric suffix is within the new node count. -/

/-- Single-node tree snapshotted in the first epoch. -/
def oldTree : AXForest := .cons "button" "Old" .nil .nil

/-- Single-node tree snapshotted in the second epoch. -/
def newTree : AXForest := .cons "link" "New" .nil .nil

/-- Claim C3 (counterexample): `uid_1` is assigned in the first epoch
(snapshot of `oldTree`); after the second snapshot (of `newTree`)
resolving the prior-epoch uid `uid_1` does not fail with NotFound — the
lookup succeeds and yields the record built from the new epoch's tree. -/
theorem c3_counterexample :
    lookupUid (takeSnapshotM oldTree) (uidStr 1) =
      some { uid := uidStr 1, num := 1, role := "button", name := "Old" } ∧
    lookupUid (takeSnapshotM newTree) (uidStr 1) =
      some { uid := uidStr 1, num := 1, role := "link", name := "New" } := by
  constructor <;> decide

theorem mem_num_takeSnapshot (t : AXForest) :
    (takeSnapshotM t).snapshotIdToNode.map SnapRec.num =
      List.range' 1 (forestSize t) := by
  show (flatRecs (numberForest t 1).2).map SnapRec.num = _
  rw [flatRecs_map_num, forestNums_numberForest]

/-- Claim C3 (amended): after a new snapshot, resolving a prior-epoch uid
`uid_<k>` (`k ≥ 1`) fails with NotFound exactly when `k` exceeds the new
snapshot's node count — the counter having been reset, uid strings with
suffix within the new node count are reassigned, and such a lookup
returns the record of the new epoch carrying that same uid string (never
a prior-epoch record: the index was cleared and rebuilt from the new tree
alone). -/
theorem c3_new_epoch_lookup (t : AXForest) (k : Nat) (hk : 1 ≤ k) :
    (lookupUid (takeSnapshotM t) (uidStr k) = none ↔ forestSize t < k) ∧
    (∀ r, lookupUid (takeSnapshotM t) (uidStr k) = some r →
      r.num = k ∧ r.uid = uidStr k) := by
  have huid : ∀ r ∈ (takeSnapshotM t).snapshotIdToNode, r.uid = uidStr r.num :=
    fun r hr => flatRecs_uid _ r hr
  have hnum := mem_num_takeSnapshot t
  constructor
  · rw [lookupUid, List.find?_eq_none]
    constructor
    · intro h
      by_contra hle
      push_neg at hle
      have hkmem : k ∈ (takeSnapshotM t).snapshotIdToNode.map SnapRec.num := by
        rw [hnum]
        exact List.mem_range'_1.2 ⟨hk, by omega⟩
      rcases List.mem_map.1 hkmem with ⟨r, hr, hrk⟩
      have hfalse := h r hr
      rw [huid r hr, hrk] at hfalse
      simp at hfalse
    · intro hgt r hr
      have hru := huid r hr
      simp only [hru, beq_iff_eq, ne_eq]
      intro heq
      have hnumk := uidStr_inj heq
      have : r.num ∈ (takeSnapshotM t).snapshotIdToNode.map SnapRec.num :=
        List.mem_map.2 ⟨r, hr, rfl⟩
      rw [hnum] at this
      have := List.mem_range'_1.1 this
      omega
  · intro r hfind
    have hr := List.mem_of_find?_eq_some hfind
    have hp := List.find?_some hfind
    have hru : r.uid = uidStr k := by simpa using hp
    have hnumk : r.num = k := by
      apply uidStr_inj
      rw [← huid r hr]
      exact hru
    exact ⟨hnumk, hru⟩

/-- Witness for `c3_new_epoch_lookup` at the single-node second-epoch
tree and prior-epoch uid `uid_2`. -/
theorem c3_new_epoch_lookup_witness :
    (lookupUid (takeSnapshotM newTree) (uidStr 2) = none ↔
        forestSize newTree < 2) ∧
    (∀ r, lookupUid (takeSnapshotM newTree) (uidStr 2) = some r →
      r.num = 2 ∧ r.uid = uidStr 2) :=
  c3_new_epoch_lookup newTree 2 (by decide)

/-! ### Visual scanner (`getElementsForOCR`)

The page-side callback walks the selector-matched elements in document
order, filters invisible/empty/overlong/numeric-text elements, pushes a
record with `uid: "ocr_" + (results.length + 1)` per retained element,
and finally sorts by (vertical position bucketed to the nearest 10
pixels, then horizontal position).  JS `Array.prototype.sort` is stable,
so the result equals the (unique) stable sort by that comparator, which
we realise with a stable insertion sort. -/

/-- A selector-matched element, carrying the DOM facts the callback
reads.  `tagName` is lowercased as in the callback; `directTexts` are the
text contents of the element's direct text-node children; `xpath` is the
structural locator `getXPath` computes. -/
structure RawEl where
  tagName : String
  typeAttr : String
  roleAttr : String
  placeholder : String
  value : String
  textContent : String
  directTexts : List String
  rectLeft : Int
  rectTop : Int
  rectW : Int
  rectH : Int
  display : String
  visibility : String
  xpath : String
deriving DecidableEq

/-- `getControlType(el)`. -/
def getControlType (e : RawEl) : String :=
  if e.tagName = "button" then "button"
  else if e.tagName = "a" then "link"
  else if e.tagName = "input" then
    if e.typeAttr = "text" ∨ e.typeAttr = "search" ∨ e.typeAttr = "password" ∨
        e.typeAttr = "email" ∨ e.typeAttr = "number" then "textbox"
    else if e.typeAttr = "submit" ∨ e.typeAttr = "button" ∨ e.typeAttr = "reset" then
      "button"
    else if e.typeAttr = "checkbox" then "checkbox"
    else if e.typeAttr = "radio" then "radio"
    else "input[" ++ e.typeAttr ++ "]"
  else if e.tagName = "select" then "combobox"
  else if e.tagName = "textarea" then "textbox"
  else if e.tagName = "label" then "label"
  else if e.roleAttr ≠ "" then e.roleAttr
  else e.tagName

/-- The element's derived text: inputs use `placeholder || value`,
buttons and links their trimmed text content, every other tag the
space-joined trimmed direct text-node children. -/
def derivedText (e : RawEl) : String :=
  if e.tagName = "input" then
    if e.placeholder ≠ "" then e.placeholder else e.value
  else if e.tagName = "button" ∨ e.tagName = "a" then strTrim e.textContent
  else joinSpace (e.directTexts.map strTrim)

/-- Purely numeric text, JS `/^\d+$/`. -/
def isNumericOnly (t : String) : Bool :=
  !(t.data.isEmpty) && t.data.all (fun c => c.isDigit)

/-- The filter chain of the callback: non-zero rendered rectangle, not
`display:none`/`visibility:hidden`, derived text non-empty, at most 50
characters, not purely numeric. -/
def keepEl (e : RawEl) : Bool :=
  !(e.rectW == 0) && !(e.rectH == 0) &&
  !(e.display == "none") && !(e.visibility == "hidden") &&
  (let t := derivedText e
   !(t == "") && !(t.length > 50) && !(isNumericOnly t))

/-- One pushed result record. -/
structure OcrRec where
  uid : String
  type : String
  text : String
  x : Int
  y : Int
  width : Int
  height : Int
  xpath : String
deriving DecidableEq

/-- `results.push({ uid: \x60ocr_${results.length + 1}\x60, … })`. -/
def mkOcrRec (e : RawEl) (k : Nat) : OcrRec :=
  { uid := ocrStr k, type := getControlType e, text := derivedText e,
    x := e.rectLeft, y := e.rectTop, width := e.rectW, height := e.rectH,
    xpath := e.xpath }

/-- The collection loop; `n` is the number of results pushed so far. -/
def collectOcr : List RawEl → Nat → List OcrRec
  | [], _ => []
  | e :: rest, n =>
    if keepEl e then mkOcrRec e (n + 1) :: collectOcr rest (n + 1)
    else collectOcr rest n

/-- `Math.round(y / 10)` for integral `y`: round half away from minus
infinity is floor of `(y + 5) / 10`. -/
def bucketY (y : Int) : Int := (y + 5).fdiv 10

/-- The comparator reports `a` strictly before `b`: smaller 10-pixel row
bucket, or same bucket and smaller horizontal position. -/
def ocrBefore (a b : OcrRec) : Bool :=
  bucketY a.y < bucketY b.y || (bucketY a.y == bucketY b.y && a.x < b.x)

/-- Stable insertion of `a` (scanned later) into an already-sorted list:
`a` passes an element only when strictly before it, so it lands after all
equivalent elements. -/
def insertStable {α : Type} (lt : α → α → Bool) (a : α) : List α → List α
  | [] => [a]
  | b :: l => if lt a b then a :: b :: l else b :: insertStable lt a l

/-- Stable sort by a strict comparator, processing elements left to
right: the unique stable sort, hence the result of JS `Array.sort`. -/
def stableSortJs {α : Type} (lt : α → α → Bool) (l : List α) : List α :=
  l.foldl (fun acc a => insertStable lt a acc) []

/-- `getElementsForOCR`'s returned list: collect in document order, then
sort by (row bucket, horizontal position). -/
def getElementsForOCRM (els : List RawEl) : List OcrRec :=
  stableSortJs ocrBefore (collectOcr els 0)

theorem insertStable_perm {α : Type} (lt : α → α → Bool) (a : α) :
    ∀ l : List α, List.Perm (insertStable lt a l) (a :: l) := by
  intro l
  induction l with
  | nil => simp [insertStable]
  | cons b l ih =>
    rw [insertStable]
    by_cases h : lt a b = true
    · rw [if_pos h]
    · rw [if_neg h]
      exact List.Perm.trans (List.Perm.cons b ih) (List.Perm.swap a b l)

theorem stableSortJs_foldl_perm {α : Type} (lt : α → α → Bool) :
    ∀ (l acc : List α),
      List.Perm (l.foldl (fun acc a => insertStable lt a acc) acc) (l ++ acc) := by
  intro l
  induction l with
  | nil => intro acc; simp
  | cons x l ih =>
    intro acc
    have h1 : (x :: l).foldl (fun acc a => insertStable lt a acc) acc
        = l.foldl (fun acc a => insertStable lt a acc) (insertStable lt x acc) := rfl
    rw [h1]
    refine List.Perm.trans (ih (insertStable lt x acc)) ?_
    refine List.Perm.trans (List.Perm.append_left l (insertStable_perm lt x acc)) ?_
    exact List.Perm.trans List.perm_middle (by simp)

theorem stableSortJs_perm {α : Type} (lt : α → α → Bool) (l : List α) :
    List.Perm (stableSortJs lt l) l := by
  have := stableSortJs_foldl_perm lt l []
  simpa [stableSortJs] using this

/-- A visible span at page position (0, 100) whose direct text is
`hello`; earlier in document order than `spanHigh` but below it on the
page. -/
def spanLow : RawEl :=
  { tagName := "span", typeAttr := "", roleAttr := "", placeholder := ""
    value := "", textContent := "", directTexts := ["hello"], rectLeft := 0
    rectTop := 100, rectW := 10, rectH := 10, display := "block"
    visibility := "visible", xpath := "/html/body/span" }

/-- A visible span at page position (0, 0) whose direct text is `world`;
later in document order than `spanLow` but above it on the page. -/
def spanHigh : RawEl :=
  { tagName := "span", typeAttr := "", roleAttr := "", placeholder := ""
    value := "", textContent := "", directTexts := ["world"], rectLeft := 0
    rectTop := 0, rectW := 10, rectH := 10, display := "block"
    visibility := "visible", xpath := "/html/body/span[2]" }

/-- Claim C6 (failing evaluation): uids are assigned from the pre-sort
document-order position, so after sorting the record carrying `ocr_1`
(the element at y=100, document-first) sits at position 2 while position
1 holds the record labelled `ocr_2`: the record carrying uid `ocr_k` is
not the k-th element of the returned reading-order list, even though the
list itself is correctly ordered by row bucket then x. -/
theorem c6_uid_not_positional :
    (getElementsForOCRM [spanLow, spanHigh]).map OcrRec.uid =
      [ocrStr 2, ocrStr 1] ∧
    (getElementsForOCRM [spanLow, spanHigh]).map OcrRec.y = [0, 100] := by
  constructor <;> decide

theorem mem_collectOcr :
    ∀ (els : List RawEl) (n : Nat) (r : OcrRec), r ∈ collectOcr els n →
      ∃ e ∈ els, ∃ k, keepEl e = true ∧ r = mkOcrRec e k := by
  intro els
  induction els with
  | nil => intro n r hr; simp [collectOcr] at hr
  | cons e rest ih =>
    intro n r hr
    rw [collectOcr] at hr
    by_cases hk : keepEl e = true
    · rw [if_pos hk] at hr
      rcases List.mem_cons.1 hr with hr | hr
      · exact ⟨e, by simp, n + 1, hk, hr⟩
      · rcases ih (n + 1) r hr with ⟨e', he', k, hk', hr'⟩
        exact ⟨e', by simp [he'], k, hk', hr'⟩
    · rw [if_neg hk] at hr
      rcases ih n r hr with ⟨e', he', k, hk', hr'⟩
      exact ⟨e', by simp [he'], k, hk', hr'⟩

theorem keepEl_unfold {e : RawEl} (h : keepEl e = true) :
    e.rectW ≠ 0 ∧ e.rectH ≠ 0 ∧ e.display ≠ "none" ∧ e.visibility ≠ "hidden" ∧
    derivedText e ≠ "" ∧ (derivedText e).length ≤ 50 ∧
    isNumericOnly (derivedText e) = false := by
  simp only [keepEl, Bool.and_eq_true, Bool.not_eq_true', beq_eq_false_iff_ne,
    ne_eq, decide_eq_false_iff_not, Nat.not_lt, gt_iff_lt] at h
  tauto

/-- Claim C7: every record the visual scan returns stems from an element
with non-zero rendered width and height that is neither `display:none`
nor `visibility:hidden`, and its derived text is non-empty, at most 50
characters, and not purely numeric (not every character a digit). -/
theorem c7_scan_filters (els : List RawEl) (r : OcrRec)
    (hr : r ∈ getElementsForOCRM els) :
    r.text ≠ "" ∧ r.text.length ≤ 50 ∧
    (r.text.data.all (fun c => c.isDigit)) = false ∧
    ∃ e ∈ els, e.rectW ≠ 0 ∧ e.rectH ≠ 0 ∧ e.display ≠ "none" ∧
      e.visibility ≠ "hidden" ∧ derivedText e = r.text := by
  have hmem : r ∈ collectOcr els 0 :=
    (List.Perm.mem_iff (stableSortJs_perm ocrBefore (collectOcr els 0))).1 hr
  rcases mem_collectOcr els 0 r hmem with ⟨e, he, k, hk, hrk⟩
  have hu := keepEl_unfold hk
  have htext : r.text = derivedText e := by rw [hrk]; rfl
  refine ⟨by rw [htext]; exact hu.2.2.2.2.1, by rw [htext]; exact hu.2.2.2.2.2.1,
    ?_, e, he, hu.1, hu.2.1, hu.2.2.1, hu.2.2.2.1, htext.symm⟩
  have hnum := hu.2.2.2.2.2.2
  have hne := hu.2.2.2.2.1
  rw [htext]
  rw [isNumericOnly, Bool.and_eq_false_iff] at hnum
  rcases hnum with hnum | hnum
  · exfalso
    apply hne
    have hempty : (derivedText e).data = [] := by
      have hb : (derivedText e).data.isEmpty = true := by simpa using hnum
      exact List.isEmpty_iff.1 hb
    exact String.ext (by rw [hempty])
  · exact hnum

/-- Witness for `c7_scan_filters` on a one-element page. -/
theorem c7_scan_filters_witness :
    (mkOcrRec spanLow 1).text ≠ "" ∧ (mkOcrRec spanLow 1).text.length ≤ 50 ∧
    ((mkOcrRec spanLow 1).text.data.all (fun c => c.isDigit)) = false ∧
    ∃ e ∈ [spanLow], e.rectW ≠ 0 ∧ e.rectH ≠ 0 ∧ e.display ≠ "none" ∧
      e.visibility ≠ "hidden" ∧ derivedText e = (mkOcrRec spanLow 1).text :=
  c7_scan_filters [spanLow] (mkOcrRec spanLow 1) (by decide)

/-- The uid strings one snapshot operation assigns. -/
def epochUids (t : AXForest) : List String :=
  (takeSnapshotM t).snapshotIdToNode.map SnapRec.uid

/-- Claim C4 (counterexample): two distinct snapshot operations in the
same process run both assign the uid string `uid_1` (the counter is reset
to 1 on every snapshot), and two distinct visual scans both assign
`ocr_1`: the per-operation uid sets are not disjoint. -/
theorem c4_counterexample :
    epochUids oldTree = [uidStr 1] ∧ epochUids newTree = [uidStr 1] ∧
    (getElementsForOCRM [spanLow]).map OcrRec.uid = [ocrStr 1] ∧
    (getElementsForOCRM [spanHigh]).map OcrRec.uid = [ocrStr 1] := by
  refine ⟨by decide, by decide, by decide, by decide⟩

theorem ocrStr_inj {m n : Nat} (h : ocrStr m = ocrStr n) : m = n := by
  apply decStr_inj
  have hdata := congrArg String.data h
  simp only [ocrStr, String.data_append] at hdata
  exact String.ext (List.append_cancel_left hdata)

theorem collectOcr_map_uid :
    ∀ (els : List RawEl) (n : Nat),
      (collectOcr els n).map OcrRec.uid =
        (List.range' (n + 1) (collectOcr els n).length).map ocrStr := by
  intro els
  induction els with
  | nil => intro n; simp [collectOcr]
  | cons e rest ih =>
    intro n
    rw [collectOcr]
    by_cases hk : keepEl e = true
    · rw [if_pos hk]
      simp only [List.map_cons, List.length_cons, List.range'_succ, ih (n + 1)]
      rfl
    · rw [if_neg hk]
      exact ih n

/-- Claim C4 (amended): uid strings are unique within a single snapshot
or scan operation (each epoch's assigned uid list has no duplicates), but
they are not unique across operations in a process run: every snapshot
restarts `uid_` numbering at 1 and every scan restarts `ocr_` numbering
at 1, so distinct operations reuse the same uid strings. -/
theorem c4_unique_within_operation :
    (∀ t : AXForest, (epochUids t).Nodup) ∧
    (∀ els : List RawEl, ((getElementsForOCRM els).map OcrRec.uid).Nodup) := by
  constructor
  · intro t
    have hcong : epochUids t =
        ((takeSnapshotM t).snapshotIdToNode.map SnapRec.num).map uidStr := by
      rw [List.map_map]
      exact List.map_congr_left (fun r hr => flatRecs_uid _ r hr)
    rw [hcong, mem_num_takeSnapshot]
    exact (List.nodup_range' 1 (forestSize t)).map
      (fun a b h => uidStr_inj h)
  · intro els
    have hperm := (stableSortJs_perm ocrBefore (collectOcr els 0)).map OcrRec.uid
    have hnod : ((collectOcr els 0).map OcrRec.uid).Nodup := by
      rw [collectOcr_map_uid]
      exact (List.nodup_range' (0 + 1) (collectOcr els 0).length).map
        (fun a b h => ocrStr_inj h)
    show ((stableSortJs ocrBefore (collectOcr els 0)).map OcrRec.uid).Nodup
    exact (List.Perm.nodup_iff hperm).2 hnod

/-! ### State effect of resolution (`getElementByUid`)

Resolving a `uid_` uid only reads `snapshotIdToNode`; resolving an
`ocr_` uid re-runs `getElementsForOCR`, which sets `nextUid = 1` and
clears `snapshotIdToNode` before scanning, then indexes into the sorted
scan list by the uid's numeric suffix minus one. -/

/-- `getElementsForOCR` as a state transformer: it resets the counter
and clears the index, and returns the freshly scanned list. -/
def getForOCRState (st : SnapshotState) (els : List RawEl) :
    SnapshotState × List OcrRec :=
  ((fun _ => { snapshotIdToNode := [], nextUid := 1 }) st, getElementsForOCRM els)

/-- What resolution hands back: a handle derived from a scanned record,
a handle derived from a snapshot record, or the thrown NotFound error. -/
inductive ResolveOutcome where
  | ocrHandle (rec : OcrRec) : ResolveOutcome
  | axHandle (rec : SnapRec) : ResolveOutcome
  | notFound (uid : String) : ResolveOutcome
deriving DecidableEq

/-- Outcome of the `ocr_` branch: the numeric suffix is parsed,
decremented, and used as an index into the re-scanned list; a suffix of
0 (JS index −1) or out of range throws, as does a non-numeric suffix
(JS indexes with NaN and dereferences `undefined`). -/
def ocrOutcome (uid : String) (list : List OcrRec) : ResolveOutcome :=
  match jsParseInt (String.mk (uid.data.drop 4)) with
  | none => .notFound uid
  | some k =>
    if k = 0 then .notFound uid
    else
      match list.get? (k - 1) with
      | none => .notFound uid
      | some rec => .ocrHandle rec

/-- `getElementByUid` with its effect on the engine state: `ocr_` uids
re-run the scan (whose reset of the index is the entire state effect) and
index into its result; other uids consult the index read-only. -/
def getElementByUidM (st : SnapshotState) (uid : String) (els : List RawEl) :
    SnapshotState × ResolveOutcome :=
  if strStartsWith uid "ocr_" then
    ((getForOCRState st els).1, ocrOutcome uid (getForOCRState st els).2)
  else
    match lookupUid st uid with
    | none => (st, .notFound uid)
    | some r => (st, .axHandle r)

/-- Claim C8 (counterexample): resolving an `ocr_` uid mutates the
Snapshot Index — starting from the state left by a one-node snapshot
(index of size 1, counter 2), resolving `ocr_1` clears the uid table and
resets the counter to 1. -/
theorem c8_counterexample :
    (getElementByUidM (takeSnapshotM oldTree) (ocrStr 1) [spanLow]).1 ≠
      takeSnapshotM oldTree ∧
    (getElementByUidM (takeSnapshotM oldTree) (ocrStr 1) [spanLow]).1 =
      { snapshotIdToNode := [], nextUid := 1 } := by
  constructor <;> decide

/-- Claim C8 (amended): resolving a uid outside the `ocr_` namespace
leaves `snapshotIdToNode` and `nextUid` exactly as they were, whether it
succeeds or fails; resolving an `ocr_` uid re-runs the visual scan, which
always leaves the uid table empty and the counter at 1. -/
theorem c8_resolution_state (st : SnapshotState) (uid : String)
    (els : List RawEl) :
    (strStartsWith uid "ocr_" = false → (getElementByUidM st uid els).1 = st) ∧
    (strStartsWith uid "ocr_" = true →
      (getElementByUidM st uid els).1 =
        { snapshotIdToNode := [], nextUid := 1 }) := by
  constructor
  · intro h
    rw [getElementByUidM, if_neg (by simp [h])]
    cases hl : lookupUid st uid <;> simp
  · intro h
    rw [getElementByUidM, if_pos (by simp [h])]
    rfl

/-- Witness for `c8_resolution_state`: a `uid_` lookup leaves the
post-snapshot state untouched, and an `ocr_` lookup resets it. -/
theorem c8_resolution_state_witness :
    (getElementByUidM (takeSnapshotM oldTree) (uidStr 1) [spanLow]).1 =
      takeSnapshotM oldTree ∧
    (getElementByUidM (takeSnapshotM oldTree) (ocrStr 2) [spanLow]).1 =
      { snapshotIdToNode := [], nextUid := 1 } :=
  ⟨(c8_resolution_state (takeSnapshotM oldTree) (uidStr 1) [spanLow]).1 (by decide),
   (c8_resolution_state (takeSnapshotM oldTree) (ocrStr 2) [spanLow]).2 (by decide)⟩

/-! ### `fill`: clear before typing

`fill` resolves the element, sets `value = ''` and dispatches bubbling
`input` and `change` events when the element is an `INPUT` or `TEXTAREA`,
waits, then types the new text — which appends keystrokes to the
(now empty) value. -/

/-- The mutable DOM facts of the form element `fill` touches. -/
structure DomInput where
  tagName : String
  value : String
  events : List String
deriving DecidableEq

/-- The clearing step of `fill`: empty the value and dispatch `input`
then `change`, only for `INPUT`/`TEXTAREA` elements. -/
def clearInput (el : DomInput) : DomInput :=
  if el.tagName = "INPUT" ∨ el.tagName = "TEXTAREA" then
    { el with value := "", events := el.events ++ ["input", "change"] }
  else el

/-- `handle.type(text)`: keystrokes append to the current value. -/
def typeText (el : DomInput) (text : String) : DomInput :=
  { el with value := el.value ++ text }

/-- `fill`: clear, then type the new text. -/
def fillM (el : DomInput) (text : String) : DomInput :=
  typeText (clearInput el) text

/-- Claim C9: when `fill` acts on a text input or textarea, the value is
emptied and `input`/`change` events dispatched before typing, so the
final value is exactly the new text — never the old value concatenated
with it. -/
theorem c9_fill_replaces (el : DomInput) (text : String)
    (h : el.tagName = "INPUT" ∨ el.tagName = "TEXTAREA") :
    (fillM el text).value = text ∧
    (clearInput el).value = "" ∧
    (clearInput el).events = el.events ++ ["input", "change"] := by
  rw [fillM, typeText, clearInput, if_pos h]
  refine ⟨?_, rfl, rfl⟩
  show "" ++ text = text
  exact String.ext (by simp [String.data_append])

/-- An input currently holding the value `old`. -/
def oldInput : DomInput := { tagName := "INPUT", value := "old", events := [] }

/-- Witness for `c9_fill_replaces`: filling an input holding `old` with
`new` yields exactly `new`. -/
theorem c9_fill_replaces_witness :
    (fillM oldInput "new").value = "new" ∧
    (clearInput oldInput).value = "" ∧
    (clearInput oldInput).events = oldInput.events ++ ["input", "change"] :=
  c9_fill_replaces oldInput "new" (Or.inl rfl)

/-! ### `closePage`: the last tab is never closed

`closePage` refreshes the page list, resolves the target (by 1-based
display id — the position in the refreshed list — or, for a falsy id,
the current page), throws when the target is missing, and when exactly
one page is open navigates it to `about:blank` and reports a reset
instead of closing. -/

/-- One open page: a stable identity and its url. -/
structure PageObj where
  pid : Nat
  url : String
deriving DecidableEq

/-- The tab state `closePage` works on: the open pages in browser order
and the current page. -/
structure PagesState where
  pages : List PageObj
  current : Option PageObj
deriving DecidableEq

/-- What `closePage` reports. -/
inductive CloseResult where
  | noPages : CloseResult
  | reset : CloseResult
  | closed : CloseResult
  | notFound : CloseResult
deriving DecidableEq

/-- The `refreshPages` step at the start of `closePage`: when pages exist
and no page is current, the first page becomes current. -/
def refreshCurrent (st : PagesState) : PagesState :=
  match st.current, st.pages with
  | none, p :: _ => { st with current := some p }
  | _, _ => st

/-- Target resolution: `pageId ? find-by-display-id : currentPage`, with
`pageId = 0` modelling the falsy/absent argument.  Display ids are
positions + 1 in the refreshed list, so the lookup is
`pages[pageId - 1]`. -/
def closeTarget (st : PagesState) (pageId : Nat) : Option PageObj :=
  if pageId ≠ 0 then st.pages.get? (pageId - 1) else st.current

/-- The action on a resolved target: with exactly one open page navigate
it to `about:blank` and report a reset; otherwise close it and, when it
was current, make the first remaining page current. -/
def closeAction (st : PagesState) (t : PageObj) : PagesState × CloseResult :=
  if st.pages.length = 1 then
    ({ pages := st.pages.map
         (fun p => if p.pid == t.pid then { p with url := "about:blank" } else p),
       current := st.current }, .reset)
  else
    ({ pages := st.pages.eraseP (fun p => p.pid == t.pid),
       current :=
         match st.current with
         | none => none
         | some c =>
           if c.pid == t.pid then
             (st.pages.eraseP (fun p => p.pid == t.pid)).head?
           else some c }, .closed)

/-- `closePage(pageId)`: refresh, handle the empty list, resolve the
target (throwing NotFound when absent), then act on it. -/
def closePageM (st0 : PagesState) (pageId : Nat) : PagesState × CloseResult :=
  let st := refreshCurrent st0
  if st.pages.isEmpty then (st, .noPages)
  else (closeTarget st pageId).elim (st, .notFound) (fun t => closeAction st t)

theorem refreshCurrent_pages (st : PagesState) :
    (refreshCurrent st).pages = st.pages := by
  rcases st with ⟨pages, current⟩
  cases current <;> cases pages <;> rfl

theorem eraseP_ne_nil_of_two {α : Type} (p : α → Bool) :
    ∀ l : List α, 2 ≤ l.length → l.eraseP p ≠ [] := by
  intro l hl
  match l with
  | a :: b :: t =>
    rw [List.eraseP_cons]
    cases p a <;> simp

theorem refreshCurrent_current_mem (st : PagesState)
    (hcur : ∀ c, st.current = some c → c ∈ st.pages) :
    ∀ c, (refreshCurrent st).current = some c → c ∈ (refreshCurrent st).pages := by
  rcases st with ⟨pages, current⟩
  cases current with
  | none =>
    cases pages with
    | nil => intro c hc; exact absurd hc (by simp [refreshCurrent])
    | cons p rest =>
      intro c hc
      have hpc : p = c := by simpa [refreshCurrent] using hc
      simp [refreshCurrent, ← hpc]
  | some c0 =>
    intro c hc
    have hcc : c0 = c := by simpa [refreshCurrent] using hc
    have hin := hcur c (by simp [← hcc])
    simpa [refreshCurrent] using hin

/-- Claim C10: `closePage` never empties the set of open pages — whenever
at least one page was open, at least one page remains open afterwards;
and with exactly one open page the call never closes it: it either throws
(target not found, page list untouched) or reports a reset, in which case
the same page (same identity) remains open, navigated to `about:blank`.
The hypothesis `hcur` is the engine invariant that the current page,
when set, is one of the open pages. -/
theorem c10_close_keeps_page (st0 : PagesState) (pageId : Nat)
    (h : st0.pages ≠ [])
    (hcur : ∀ c, st0.current = some c → c ∈ st0.pages) :
    (closePageM st0 pageId).1.pages ≠ [] ∧
    (∀ p, st0.pages = [p] →
      (closePageM st0 pageId).2 ≠ CloseResult.closed ∧
      (∀ t, closeTarget (refreshCurrent st0) pageId = some t →
        (closePageM st0 pageId).2 = CloseResult.reset) ∧
      ((closePageM st0 pageId).2 = CloseResult.reset →
        (closePageM st0 pageId).1.pages = [{ pid := p.pid, url := "about:blank" }])) := by
  have hp' : (refreshCurrent st0).pages = st0.pages := refreshCurrent_pages st0
  have hcur' := refreshCurrent_current_mem st0 hcur
  have hne : (refreshCurrent st0).pages.isEmpty = false := by
    rw [hp']
    cases hps : st0.pages with
    | nil => exact absurd hps h
    | cons a l => rfl
  have hstep : closePageM st0 pageId =
      (closeTarget (refreshCurrent st0) pageId).elim
        (refreshCurrent st0, CloseResult.notFound)
        (fun t => closeAction (refreshCurrent st0) t) := by
    simp only [closePageM, hne, Bool.false_eq_true, if_false]
  cases htgt : closeTarget (refreshCurrent st0) pageId with
  | none =>
    rw [htgt, Option.elim_none] at hstep
    rw [hstep]
    refine ⟨by rw [show (refreshCurrent st0, CloseResult.notFound).1.pages =
        (refreshCurrent st0).pages from rfl, hp']; exact h,
      fun p hp => ⟨by simp, fun t ht => ?_, by simp⟩⟩
    exact absurd ht (by simp)
  | some t =>
    rw [htgt, Option.elim_some] at hstep
    rw [hstep]
    by_cases hlen : (refreshCurrent st0).pages.length = 1
    · rw [closeAction, if_pos hlen]
      refine ⟨?_, ?_⟩
      · show ((refreshCurrent st0).pages.map _) ≠ []
        rw [hp']
        simpa using h
      · intro p hp
        refine ⟨by simp, fun t' ht' => rfl, fun _ => ?_⟩
        have hsingle : (refreshCurrent st0).pages = [p] := by rw [hp', hp]
        have htp : t = p := by
          rw [closeTarget] at htgt
          by_cases hid : pageId ≠ 0
          · rw [if_pos hid, hsingle] at htgt
            rcases eq_or_ne (pageId - 1) 0 with h0 | h0
            · rw [h0] at htgt
              simpa using htgt.symm
            · rw [List.get?_eq_none.2 (by simp; omega)] at htgt
              exact absurd htgt (by simp)
          · rw [if_neg hid] at htgt
            have := hcur' t htgt
            rw [hsingle] at this
            simpa using this
        show ((refreshCurrent st0).pages.map _) = _
        rw [hsingle, List.map_cons, List.map_nil, htp]
        simp
    · rw [closeAction, if_neg hlen]
      have hlen2 : 2 ≤ (refreshCurrent st0).pages.length := by
        rw [hp']
        rcases hps : st0.pages with _ | ⟨a, _ | ⟨b, l⟩⟩
        · exact absurd hps h
        · exfalso; apply hlen; rw [hp', hps]; rfl
        · simp
      refine ⟨?_, ?_⟩
      · show (refreshCurrent st0).pages.eraseP _ ≠ []
        exact eraseP_ne_nil_of_two _ _ hlen2
      · intro p hp
        exfalso
        apply hlen
        rw [hp', hp]
        rfl

/-- A two-page browser state with the first page current. -/
def twoPages : PagesState :=
  { pages := [{ pid := 1, url := "https://a.example" },
              { pid := 2, url := "https://b.example" }],
    current := some { pid := 1, url := "https://a.example" } }

/-- A one-page browser state with that page current. -/
def onePage : PagesState :=
  { pages := [{ pid := 7, url := "https://only.example" }],
    current := some { pid := 7, url := "https://only.example" } }

/-- Witness for `c10_close_keeps_page` on concrete one- and two-page
states. -/
theorem c10_close_keeps_page_witness :
    ((closePageM twoPages 1).1.pages ≠ [] ∧
      (∀ p, twoPages.pages = [p] →
        (closePageM twoPages 1).2 ≠ CloseResult.closed ∧
        (∀ t, closeTarget (refreshCurrent twoPages) 1 = some t →
          (closePageM twoPages 1).2 = CloseResult.reset) ∧
        ((closePageM twoPages 1).2 = CloseResult.reset →
          (closePageM twoPages 1).1.pages =
            [{ pid := p.pid, url := "about:blank" }]))) ∧
    ((closePageM onePage 0).1.pages ≠ [] ∧
      (∀ p, onePage.pages = [p] →
        (closePageM onePage 0).2 ≠ CloseResult.closed ∧
        (∀ t, closeTarget (refreshCurrent onePage) 0 = some t →
          (closePageM onePage 0).2 = CloseResult.reset) ∧
        ((closePageM onePage 0).2 = CloseResult.reset →
          (closePageM onePage 0).1.pages =
            [{ pid := p.pid, url := "about:blank" }]))) :=
  ⟨c10_close_keeps_page twoPages 1 (by decide) (by decide),
   c10_close_keeps_page onePage 0 (by decide) (by decide)⟩
